import Mathlib

/-!
# Verification of the arducli register-enumeration and decode engine

Shallow embedding of `src/arducli.py`. The device side of the register
protocol is modelled as an oracle indexed by the cursor registers: the code
always writes an index register immediately before reading the detail
registers that belong to it, so the value returned by a detail read is a
function of the most recently written cursor(s). Machine integers are `Nat`
(all register traffic in the source is non-negative and below 2^32, and the
source performs no overflow-relevant arithmetic). The unbounded `while True`
loops of the source are embedded with an explicit fuel argument; a result of
`none` means the loop did not reach its exit condition within the given
fuel, and a sentinel-terminated run is characterised independently of the
fuel once the fuel exceeds the sentinel position. Side effects on the bus
(register writes, register reads, the 50 ms settle delay) are additionally
recorded as an operation trace, so ordering contracts can be stated.
-/

/-! ## Register addressing (arducli.py lines 24-52) -/

def DEVICE_REG_BASE : Nat := 0x0100
def PIXFORMAT_REG_BASE : Nat := 0x0200
def FORMAT_REG_BASE : Nat := 0x0300
def CTRL_REG_BASE : Nat := 0x0400
def IPC_REG_BASE : Nat := 0x0600
def STREAM_ON : Nat := DEVICE_REG_BASE ||| 0x0000
def DEVICE_VERSION_REG : Nat := DEVICE_REG_BASE ||| 0x0001
def SENSOR_ID_REG : Nat := DEVICE_REG_BASE ||| 0x0002
def DEVICE_ID_REG : Nat := DEVICE_REG_BASE ||| 0x0003
def FIRMWARE_SENSOR_ID_REG : Nat := DEVICE_REG_BASE ||| 0x0005
def UNIQUE_ID_REG : Nat := DEVICE_REG_BASE ||| 0x0006
def SYSTEM_IDLE_REG : Nat := DEVICE_REG_BASE ||| 0x0007
def SOFT_VERSION_LEN_REG : Nat := DEVICE_REG_BASE ||| 0x00F0
def SOFT_VERSION_INDEX_REG : Nat := DEVICE_REG_BASE ||| 0x00F1
def SOFT_VERSION_REG : Nat := DEVICE_REG_BASE ||| 0x00F2
def PIXFORMAT_INDEX_REG : Nat := PIXFORMAT_REG_BASE ||| 0x0000
def PIXFORMAT_TYPE_REG : Nat := PIXFORMAT_REG_BASE ||| 0x0001
def PIXFORMAT_ORDER_REG : Nat := PIXFORMAT_REG_BASE ||| 0x0002
def MIPI_LANES_REG : Nat := PIXFORMAT_REG_BASE ||| 0x0003
def RESOLUTION_INDEX_REG : Nat := FORMAT_REG_BASE ||| 0x0000
def FORMAT_WIDTH_REG : Nat := FORMAT_REG_BASE ||| 0x0001
def FORMAT_HEIGHT_REG : Nat := FORMAT_REG_BASE ||| 0x0002
def CTRL_INDEX_REG : Nat := CTRL_REG_BASE ||| 0x0000
def CTRL_ID_REG : Nat := CTRL_REG_BASE ||| 0x0001
def CTRL_MIN_REG : Nat := CTRL_REG_BASE ||| 0x0002
def CTRL_MAX_REG : Nat := CTRL_REG_BASE ||| 0x0003
def CTRL_DEF_REG : Nat := CTRL_REG_BASE ||| 0x0005
def CTRL_VALUE_REG : Nat := CTRL_REG_BASE ||| 0x0006
def NO_DATA_AVAILABLE : Nat := 0xFFFFFFFE

/-- The control id the max-fps scan stops at (arducli.py line 159). -/
def FRAMERATE_CTRL_ID : Nat := 0x981906

/-! ## Static lookup tables (arducli.py lines 55-110) -/

def pix_type_map : Nat → Option String
  | 0x2A => some "RAW8"
  | 0x2B => some "RAW10"
  | 0x2C => some "RAW12"
  | 0x18 => some "YUV420_8BIT"
  | 0x19 => some "YUV420_10BIT"
  | 0x1E => some "YUV422_8BIT"
  | 0x30 => some "JPEG"
  | _ => none

def raw_bayer_order : Nat → Option String
  | 0x0 => some "BGGR"
  | 0x1 => some "GBRG"
  | 0x2 => some "GRBG"
  | 0x3 => some "RGGB"
  | 0x4 => some "MONO"
  | _ => none

def yuv_order : Nat → Option String
  | 0x0 => some "YUYV"
  | 0x1 => some "YVYU"
  | 0x2 => some "UYVY"
  | 0x3 => some "VYUY"
  | _ => none

def control_id_map : Nat → Option String
  | 0x980902 => some "Saturation"
  | 0x98090c => some "AWBMode"
  | 0x98090e => some "RedGain"
  | 0x98090f => some "BlueGain"
  | 0x98091a => some "ColorTemperature"
  | 0x9a0901 => some "AEEnable"
  | 0x9a0919 => some "ExposureMetering"
  | 0x980911 => some "Exposure"
  | 0x981901 => some "TriggerMode"
  | 0x981906 => some "Framerate"
  | 0x9e0903 => some "AnalogueGain"
  | 0x9A090A => some "Focus"
  | 0x980900 => some "brightness"
  | 0x980901 => some "contrast"
  | 0x98091B => some "sharpness"
  | 0x980913 => some "gain"
  | _ => none

/-- The entries `ID_map` holds before `ID_map.update(control_id_map)` runs. -/
def ID_map_base : Nat → Option String
  | 0x980914 => some "horizontal_flip"
  | 0x980915 => some "vertical_flip"
  | 0x98190E => some "strobe_width"
  | 0x98190F => some "strobe_shift"
  | 0x9e0901 => some "vertical_blanking"
  | 0x9e0902 => some "horizontal_blanking"
  | 0x9f0902 => some "pixel_rate"
  | 0x98091C => some "backlight_compensation"
  | _ => none

/-- `ID_map.update(control_id_map)`: entries of `control_id_map` win
(the two key sets are actually disjoint in the source). -/
def ID_map (cid : Nat) : Option String :=
  (control_id_map cid).orElse fun _ => ID_map_base cid

/-! ## Device model

The device behind the transport, as an oracle indexed by the cursor
registers. A field such as `width i` is the value a read of
`FORMAT_WIDTH_REG` returns while the resolution cursor holds `i`; control
registers are indexed by the resolution cursor and the control cursor. -/

structure Device where
  resPresence : Nat → Nat
  width : Nat → Nat
  height : Nat → Nat
  ctrlId : Nat → Nat → Nat
  ctrlMax : Nat → Nat → Nat
  ctrlMin : Nat → Nat → Nat
  ctrlDef : Nat → Nat → Nat
  pixPresence : Nat → Nat
  pixType : Nat → Nat
  pixOrder : Nat → Nat
  lanes : Nat → Nat
  softLen : Nat
  softChar : Nat → Nat

/-! ## Descriptors (spec section 3, as printed or returned by arducli.py) -/

structure Resolution where
  index : Nat
  width : Nat
  height : Nat
  max_fps : Option Nat
deriving DecidableEq, Repr, Inhabited

structure Ctrl where
  id : Nat
  name : String
  maxVal : Nat
  minVal : Nat
  defVal : Nat
deriving DecidableEq, Repr, Inhabited

structure PixFmt where
  index : Nat
  ptype : Nat
  porder : Nat
  lanes : Nat
  dtype : String
  order : Option String
  resolutions : List (Resolution × List Ctrl)
deriving DecidableEq, Repr, Inhabited

/-! ## Bus operation traces -/

/-- One observable action on the I2C bus: a 32-bit register write, a
register read (together with the value the device returned), or the fixed
50 ms settle delay of `wait_for_free` (arducli.py lines 132-133). -/
inductive Op where
  | write (reg val : Nat)
  | read (reg val : Nat)
  | sleep
deriving DecidableEq, Repr

/-! ## enum_resolutions (arducli.py lines 139-166)

Each loop is embedded as a fuel-indexed function returning its result (or
`none` when the fuel ran out before the loop exited) paired with the trace
of bus operations it performed. -/

/-- The inner max-framerate scan of `enum_resolutions` (lines 153-162):
starting at control cursor `j`, page through the controls of the resolution
whose cursor is `rc`; stop with the control-max value at the first control
whose id is `FRAMERATE_CTRL_ID`, or with `none` at the sentinel. -/
def findMaxFpsTr (d : Device) (rc : Nat) : Nat → Nat → Option (Option Nat) × List Op
  | 0, _ => (none, [])
  | fuel+1, j =>
    let cid := d.ctrlId rc j
    let pre := [Op.write CTRL_INDEX_REG j, Op.read CTRL_ID_REG cid]
    if cid = NO_DATA_AVAILABLE then
      (some none, pre)
    else if cid = FRAMERATE_CTRL_ID then
      (some (some (d.ctrlMax rc j)), pre ++ [Op.read CTRL_MAX_REG (d.ctrlMax rc j)])
    else
      let rest := findMaxFpsTr d rc fuel (j+1)
      (rest.1, pre ++ rest.2)

/-- The resolution-paging loop of `enum_resolutions` (lines 140-166) from
cursor `i`: write the resolution index, read it back, stop at the sentinel;
otherwise read width and height, run the max-fps scan (preceded by the
`writeReg(CTRL_INDEX_REG, 0)` of line 151), append the descriptor. -/
def enumResolutionsAux (d : Device) (innerFuel : Nat) : Nat → Nat → Option (List Resolution) × List Op
  | 0, _ => (none, [])
  | fuel+1, i =>
    let pres := d.resPresence i
    let pre := [Op.write RESOLUTION_INDEX_REG i, Op.read RESOLUTION_INDEX_REG pres]
    if pres = NO_DATA_AVAILABLE then
      (some [], pre)
    else
      let dets := [Op.read FORMAT_WIDTH_REG (d.width i), Op.read FORMAT_HEIGHT_REG (d.height i),
                   Op.write CTRL_INDEX_REG 0]
      let fps := findMaxFpsTr d i innerFuel 0
      match fps.1 with
      | none => (none, pre ++ dets ++ fps.2)
      | some mfps =>
        let rest := enumResolutionsAux d innerFuel fuel (i+1)
        (rest.1.map (fun l => { index := i, width := d.width i, height := d.height i,
                                max_fps := mfps } :: l),
         pre ++ dets ++ fps.2 ++ rest.2)

/-- `enum_resolutions(camera)`: the loop started at index 0. -/
def enum_resolutions (d : Device) (innerFuel fuel : Nat) : Option (List Resolution) × List Op :=
  enumResolutionsAux d innerFuel fuel 0

/-- The descriptor `enum_resolutions` builds for resolution cursor `i`
(used to characterise terminated runs). -/
def resEntry (d : Device) (innerFuel i : Nat) : Resolution :=
  { index := i, width := d.width i, height := d.height i,
    max_fps := (findMaxFpsTr d i innerFuel 0).1.getD none }

/-! ## The control-enumeration loop of the full probe (arducli.py lines 336-349) -/

/-- The descriptor main's control loop logs for the control at cursor
(`rc`, `j`): id, mapped name, max, min, default (line 348). -/
def ctrlEntry (d : Device) (rc j : Nat) : Ctrl :=
  { id := d.ctrlId rc j, name := (ID_map (d.ctrlId rc j)).getD "Unknown",
    maxVal := d.ctrlMax rc j, minVal := d.ctrlMin rc j, defVal := d.ctrlDef rc j }

/-- `main`'s per-resolution control loop (lines 336-349), from control
cursor `j` while the resolution cursor holds `rc`: write the control index,
read the id, stop at the sentinel; otherwise reset the current-value
register to 0, observe the settle delay, then read max, min, default. -/
def mainCtrlLoopTr (d : Device) (rc : Nat) : Nat → Nat → Option (List Ctrl) × List Op
  | 0, _ => (none, [])
  | fuel+1, j =>
    let cid := d.ctrlId rc j
    let pre := [Op.write CTRL_INDEX_REG j, Op.read CTRL_ID_REG cid]
    if cid = NO_DATA_AVAILABLE then
      (some [], pre)
    else
      let body := [Op.write CTRL_VALUE_REG 0, Op.sleep,
                   Op.read CTRL_MAX_REG (d.ctrlMax rc j),
                   Op.read CTRL_MIN_REG (d.ctrlMin rc j),
                   Op.read CTRL_DEF_REG (d.ctrlDef rc j)]
      let rest := mainCtrlLoopTr d rc fuel (j+1)
      (rest.1.map (fun l => ctrlEntry d rc j :: l), pre ++ body ++ rest.2)

/-- The `for res in resolutions:` body of `main` (lines 328-349): one
control-enumeration pass per listed resolution. The source never rewrites
`RESOLUTION_INDEX_REG` inside this loop, so the device's resolution cursor
still holds the sentinel position reached by `enum_resolutions`; that cursor
value is passed in as `cursor`. -/
def resCtrlsTr (d : Device) (ctrlFuel cursor : Nat) : List Resolution → Option (List (Resolution × List Ctrl)) × List Op
  | [] => (some [], [])
  | r :: rs =>
    let c := mainCtrlLoopTr d cursor ctrlFuel 0
    match c.1 with
    | none => (none, c.2)
    | some cl =>
      let rest := resCtrlsTr d ctrlFuel cursor rs
      (rest.1.map (fun l => (r, cl) :: l), c.2 ++ rest.2)

/-- The body of `main`'s pixel-format loop for format cursor `i` (lines
309-349): read type, order and lane count, decode their names, run
`enum_resolutions`, then enumerate the controls of each listed resolution.
After a terminated `enum_resolutions` the device's resolution cursor holds
the sentinel position, which equals the number of listed resolutions. -/
def pixFmtBodyTr (d : Device) (i innerFuel resFuel ctrlFuel : Nat) : Option PixFmt × List Op :=
  let t := d.pixType i
  let o := d.pixOrder i
  let l := d.lanes i
  let dets := [Op.read PIXFORMAT_TYPE_REG t, Op.read PIXFORMAT_ORDER_REG o,
               Op.read MIPI_LANES_REG l]
  let dtype := (pix_type_map t).getD "Unknown"
  let ord : Option String :=
    if t = 0x2A ∨ t = 0x2B ∨ t = 0x2C then some ((raw_bayer_order o).getD "Unknown")
    else if t = 0x18 ∨ t = 0x19 ∨ t = 0x1E then some ((yuv_order o).getD "Unknown")
    else none
  let er := enum_resolutions d innerFuel resFuel
  match er.1 with
  | none => (none, dets ++ er.2)
  | some rs =>
    let rc := resCtrlsTr d ctrlFuel rs.length rs
    match rc.1 with
    | none => (none, dets ++ er.2 ++ rc.2)
    | some rcs =>
      (some { index := i, ptype := t, porder := o, lanes := l, dtype := dtype,
              order := ord, resolutions := rcs },
       dets ++ er.2 ++ rc.2)

/-- `main`'s pixel-format paging loop (lines 302-351) from format cursor
`i`: write the format index, read it back, stop at the sentinel; otherwise
run the per-format body and advance. -/
def mainPixLoopTr (d : Device) (innerFuel resFuel ctrlFuel : Nat) : Nat → Nat → Option (List PixFmt) × List Op
  | 0, _ => (none, [])
  | fuel+1, i =>
    let pres := d.pixPresence i
    let pre := [Op.write PIXFORMAT_INDEX_REG i, Op.read PIXFORMAT_INDEX_REG pres]
    if pres = NO_DATA_AVAILABLE then
      (some [], pre)
    else
      let b := pixFmtBodyTr d i innerFuel resFuel ctrlFuel
      match b.1 with
      | none => (none, pre ++ b.2)
      | some pf =>
        let rest := mainPixLoopTr d innerFuel resFuel ctrlFuel fuel (i+1)
        (rest.1.map (fun l => pf :: l), pre ++ b.2 ++ rest.2)

/-! ## FOURCC derivation of list_formats (arducli.py lines 180-188) -/

/-- The FOURCC computed by `list_formats` from the type and order codes:
the source tests the YUV class first, then the RAW class, then JPEG. -/
def fourccOf (pix_type pix_order : Nat) : String :=
  if pix_type = 0x18 ∨ pix_type = 0x19 ∨ pix_type = 0x1E then
    (yuv_order pix_order).getD "YUYV"
  else if pix_type = 0x2A ∨ pix_type = 0x2B ∨ pix_type = 0x2C then
    (raw_bayer_order pix_order).getD "RGGB"
  else if pix_type = 0x30 then
    "MJPG"
  else
    "UNKN"

/-- The FOURCC derivation exactly as the spec words it (section 4.4):
RAW-class first with the Bayer table defaulting to RGGB, then YUV-class
with the YUV table defaulting to YUYV, JPEG fixed MJPG, anything else UNKN.
Kept separate from `fourccOf` so the code can be compared against the
spec's wording. -/
def fourccSpec (pix_type pix_order : Nat) : String :=
  if pix_type = 0x2A ∨ pix_type = 0x2B ∨ pix_type = 0x2C then
    (raw_bayer_order pix_order).getD "RGGB"
  else if pix_type = 0x18 ∨ pix_type = 0x19 ∨ pix_type = 0x1E then
    (yuv_order pix_order).getD "YUYV"
  else if pix_type = 0x30 then
    "MJPG"
  else
    "UNKN"

/-! ## list_formats (arducli.py lines 171-207)

The console lines printed per resolution are modelled as structured
entries; the extended flag only adds already-computed fields to the print,
so it is not a parameter of the model. -/

structure FormatLine where
  idx : Nat
  fourcc : String
  name : String
  width : Nat
  height : Nat
  max_fps : Option Nat
deriving DecidableEq, Repr

/-- `list_formats(camera)`: write pixel-format index 0, read one type/order
pair, derive the FOURCC and human name once, enumerate resolutions, and
emit one line per resolution carrying that single FOURCC and name. -/
def list_formats (d : Device) (innerFuel fuel : Nat) : Option (List FormatLine) × List Op :=
  let t := d.pixType 0
  let o := d.pixOrder 0
  let pre := [Op.write PIXFORMAT_INDEX_REG 0, Op.read PIXFORMAT_TYPE_REG t,
              Op.read PIXFORMAT_ORDER_REG o]
  let pix_name := (pix_type_map t).getD "Unknown"
  let fourcc := fourccOf t o
  let er := enum_resolutions d innerFuel fuel
  (er.1.map (fun rs => rs.map (fun r =>
     { idx := r.index, fourcc := fourcc, name := pix_name,
       width := r.width, height := r.height, max_fps := r.max_fps })),
   pre ++ er.2)

/-! ## Software firmware version string (arducli.py lines 209-221) -/

/-- `get_software_fw_version(camera)`: read the declared length; the
sentinel or any value above 255 is reported as the literal string None;
otherwise page through the character registers, skipping codes above 255. -/
def get_software_fw_version (d : Device) : String :=
  let version_length := d.softLen
  if version_length = NO_DATA_AVAILABLE ∨ version_length > 255 then "None"
  else
    (List.range version_length).foldl (fun version i =>
      let ch := d.softChar i
      if ch > 255 then version else version.push (Char.ofNat ch)) ""

/-! ## ISP firmware version decode (arducli.py lines 223-232)

Helpers mirroring the Python % formatting used on line 232: lowercase hex
with no padding, and zero padding to a minimum width of two. -/

/-- Python `"%x" % n`: minimal lowercase hex digits, "0" for zero. -/
def pyHex (n : Nat) : String := String.mk (Nat.toDigits 16 n)

/-- Zero-pad a rendered number on the left to a minimum width of two. -/
def pad2 (s : String) : String :=
  if s.length < 2 then String.mk (List.replicate (2 - s.length) '0') ++ s else s

/-- Python `"%02x" % n`. -/
def pyHex02 (n : Nat) : String := pad2 (pyHex n)

/-- Python `"%02d" % n` for a natural number. -/
def pyDec02 (n : Nat) : String := pad2 (Nat.repr n)

/-- `parse_isp_fw_version(isp_fw_version)`: unpack id and date bit fields
and render the line-232 f-string, whose year field is the literal "20"
followed by the year value zero-padded to two decimal digits. -/
def parse_isp_fw_version (isp_fw_version : Nat) : String :=
  let isp_id := (isp_fw_version &&& 0xFFFF0000) >>> 16
  let isp_id_high := (isp_id &&& 0xFF00) >>> 8
  let isp_id_low := isp_id &&& 0x00FF
  let isp_fw_date := isp_fw_version &&& 0xFFFF
  let isp_fw_year := isp_fw_date >>> 9
  let isp_fw_month := (isp_fw_date >>> 5) &&& 0x0F
  let isp_fw_day := isp_fw_date &&& 0x1F
  "v" ++ pyHex isp_id_high ++ "." ++ pyHex02 isp_id_low ++ " 20" ++ pyDec02 isp_fw_year
    ++ "/" ++ pyDec02 isp_fw_month ++ "/" ++ pyDec02 isp_fw_day

/-- The firmware-version rendering exactly as the claim words it: the year
field is the decimal rendering of 2000 plus the year bits. Kept separate
from `parse_isp_fw_version` for comparison. -/
def fwVersionClaimFormat (v : Nat) : String :=
  let isp_id := (v &&& 0xFFFF0000) >>> 16
  let isp_id_high := (isp_id &&& 0xFF00) >>> 8
  let isp_id_low := isp_id &&& 0x00FF
  let isp_fw_date := v &&& 0xFFFF
  let isp_fw_year := isp_fw_date >>> 9
  let isp_fw_month := (isp_fw_date >>> 5) &&& 0x0F
  let isp_fw_day := isp_fw_date &&& 0x1F
  "v" ++ pyHex isp_id_high ++ "." ++ pyHex02 isp_id_low ++ " "
    ++ Nat.repr (2000 + isp_fw_year)
    ++ "/" ++ pyDec02 isp_fw_month ++ "/" ++ pyDec02 isp_fw_day

/-! ## Helper lemmas -/

lemma write_ne_of_reg_ne {r r' v w : Nat} (h : r ≠ r') : Op.write r v ≠ Op.write r' w := by
  intro he
  injection he with h1 _
  exact h h1

/-- Characterisation of the max-fps scan: if no control before relative
position `n` is the sentinel or the Framerate control, the scan's result is
decided at position `n`. -/
lemma findMaxFpsTr_stop (d : Device) (rc : Nat) :
    ∀ (n fuel j : Nat),
      (∀ t < n, d.ctrlId rc (j + t) ≠ NO_DATA_AVAILABLE ∧
                d.ctrlId rc (j + t) ≠ FRAMERATE_CTRL_ID) →
      n < fuel →
      (d.ctrlId rc (j + n) = NO_DATA_AVAILABLE → (findMaxFpsTr d rc fuel j).1 = some none)
      ∧ (d.ctrlId rc (j + n) = FRAMERATE_CTRL_ID →
          (findMaxFpsTr d rc fuel j).1 = some (some (d.ctrlMax rc (j + n)))) := by
  intro n
  induction n with
  | zero =>
    intro fuel j _ hfuel
    obtain ⟨f, rfl⟩ : ∃ f, fuel = f + 1 := ⟨fuel - 1, by omega⟩
    rw [Nat.add_zero]
    constructor
    · intro hS
      simp [findMaxFpsTr, hS]
    · intro hF
      have hne : FRAMERATE_CTRL_ID ≠ NO_DATA_AVAILABLE := by decide
      simp [findMaxFpsTr, hF, hne]
  | succ n ih =>
    intro fuel j hpre hfuel
    obtain ⟨f, rfl⟩ : ∃ f, fuel = f + 1 := ⟨fuel - 1, by omega⟩
    have h0 := hpre 0 (Nat.succ_pos n)
    rw [Nat.add_zero] at h0
    have hrec := ih f (j + 1)
      (fun t ht => by
        have h := hpre (t + 1) (by omega)
        have harith : j + (t + 1) = j + 1 + t := by omega
        rwa [harith] at h)
      (by omega)
    have harith : j + (n + 1) = j + 1 + n := by omega
    rw [harith]
    simpa [findMaxFpsTr, h0.1, h0.2] using hrec

/-- Every bus operation of the max-fps scan is a control-index write, a
control-id read, or a control-max read: in particular the scan never
resets the current-value register and never sleeps. -/
lemma findMaxFpsTr_ops (d : Device) (rc : Nat) :
    ∀ (fuel j : Nat), ∀ op ∈ (findMaxFpsTr d rc fuel j).2,
      (∃ v, op = Op.write CTRL_INDEX_REG v) ∨ (∃ v, op = Op.read CTRL_ID_REG v) ∨
      (∃ v, op = Op.read CTRL_MAX_REG v) := by
  intro fuel
  induction fuel with
  | zero =>
    intro j op hop
    simp [findMaxFpsTr] at hop
  | succ f ih =>
    intro j op hop
    by_cases h1 : d.ctrlId rc j = NO_DATA_AVAILABLE
    · simp [findMaxFpsTr, h1] at hop
      rcases hop with rfl | rfl
      · exact Or.inl ⟨j, rfl⟩
      · exact Or.inr (Or.inl ⟨_, rfl⟩)
    · by_cases h2 : d.ctrlId rc j = FRAMERATE_CTRL_ID
      · simp only [findMaxFpsTr, if_neg h1, if_pos h2, List.cons_append, List.nil_append,
          List.mem_cons, List.not_mem_nil, or_false] at hop
        rcases hop with rfl | rfl | rfl
        · exact Or.inl ⟨j, rfl⟩
        · exact Or.inr (Or.inl ⟨_, rfl⟩)
        · exact Or.inr (Or.inr ⟨_, rfl⟩)
      · simp only [findMaxFpsTr, if_neg h1, if_neg h2, List.cons_append, List.nil_append,
          List.mem_cons, List.not_mem_nil, or_false] at hop
        rcases hop with rfl | rfl | hop
        · exact Or.inl ⟨j, rfl⟩
        · exact Or.inr (Or.inl ⟨_, rfl⟩)
        · exact ih (j + 1) op hop

/-- C9: for every resolution entry, the max-fps probe scans that
resolution's controls from index 0 and stops at the first control whose id
is 0x981906, taking max_fps from the control-max register with no prior
value-register reset and no settle delay; if the control list reaches the
sentinel first, max_fps is None. -/
theorem maxfps_probe_first_framerate (d : Device) (rc m innerFuel : Nat)
    (hpre : ∀ t < m, d.ctrlId rc t ≠ NO_DATA_AVAILABLE ∧
                     d.ctrlId rc t ≠ FRAMERATE_CTRL_ID)
    (hfuel : m < innerFuel) :
    (d.ctrlId rc m = FRAMERATE_CTRL_ID →
       (findMaxFpsTr d rc innerFuel 0).1 = some (some (d.ctrlMax rc m)))
    ∧ (d.ctrlId rc m = NO_DATA_AVAILABLE →
       (findMaxFpsTr d rc innerFuel 0).1 = some none)
    ∧ (∀ op ∈ (findMaxFpsTr d rc innerFuel 0).2,
         op ≠ Op.sleep ∧ ∀ v, op ≠ Op.write CTRL_VALUE_REG v) := by
  have h := findMaxFpsTr_stop d rc m innerFuel 0
    (by simpa using hpre) hfuel
  refine ⟨by simpa using h.2, by simpa using h.1, ?_⟩
  intro op hop
  rcases findMaxFpsTr_ops d rc innerFuel 0 op hop with ⟨v, rfl⟩ | ⟨v, rfl⟩ | ⟨v, rfl⟩
  · exact ⟨by simp, fun w => write_ne_of_reg_ne (by decide)⟩
  · exact ⟨by simp, fun w => by simp⟩
  · exact ⟨by simp, fun w => by simp⟩

/-- The device used to instantiate the claim theorems about
`enum_resolutions`: two resolutions, a Framerate control at control
index 1 of each. -/
def dWitness : Device where
  resPresence := fun i => if i < 2 then i else NO_DATA_AVAILABLE
  width := fun i => 1920 + i
  height := fun i => 1080 + i
  ctrlId := fun _ j => if j = 0 then 0x980902 else
    if j = 1 then FRAMERATE_CTRL_ID else NO_DATA_AVAILABLE
  ctrlMax := fun _ _ => 60
  ctrlMin := fun _ _ => 1
  ctrlDef := fun _ _ => 30
  pixPresence := fun i => if i = 0 then 0 else NO_DATA_AVAILABLE
  pixType := fun _ => 0x2B
  pixOrder := fun _ => 0x3
  lanes := fun _ => 2
  softLen := 0
  softChar := fun _ => 0

/-- Witness for C9 at a concrete device: the Framerate control sits at
control index 1, so the probe returns its max value. -/
theorem maxfps_probe_first_framerate_witness :
    (findMaxFpsTr dWitness 0 4 0).1 = some (some 60) :=
  (maxfps_probe_first_framerate dWitness 0 1 4 (by decide) (by decide)).1 (by decide)

/-- Characterisation of terminated resolution paging: when the presence
read first returns the sentinel at relative position `n`, the loop started
at cursor `i` returns exactly the descriptors for cursors `i..i+n-1`. -/
lemma enumResolutionsAux_spec (d : Device) (innerFuel : Nat) :
    ∀ (n fuel i : Nat),
      (∀ m < n, d.resPresence (i + m) ≠ NO_DATA_AVAILABLE) →
      d.resPresence (i + n) = NO_DATA_AVAILABLE →
      (∀ m < n, ((findMaxFpsTr d (i + m) innerFuel 0).1).isSome = true) →
      n < fuel →
      (enumResolutionsAux d innerFuel fuel i).1
        = some ((List.range n).map fun m => resEntry d innerFuel (i + m)) := by
  intro n
  induction n with
  | zero =>
    intro fuel i _ hstop _ hfuel
    obtain ⟨f, rfl⟩ : ∃ f, fuel = f + 1 := ⟨fuel - 1, by omega⟩
    rw [Nat.add_zero] at hstop
    simp [enumResolutionsAux, hstop]
  | succ n ih =>
    intro fuel i hpre hstop hinner hfuel
    obtain ⟨f, rfl⟩ : ∃ f, fuel = f + 1 := ⟨fuel - 1, by omega⟩
    have h0 : d.resPresence i ≠ NO_DATA_AVAILABLE := by
      have h := hpre 0 (Nat.succ_pos n)
      rwa [Nat.add_zero] at h
    have hi0 : ((findMaxFpsTr d i innerFuel 0).1).isSome = true := by
      have h := hinner 0 (Nat.succ_pos n)
      rwa [Nat.add_zero] at h
    obtain ⟨mfps, hmfps⟩ := Option.isSome_iff_exists.mp hi0
    have hrec := ih f (i + 1)
      (fun m hm => by
        have h := hpre (m + 1) (by omega)
        rwa [show i + (m + 1) = i + 1 + m by omega] at h)
      (by rwa [show i + (n + 1) = i + 1 + n by omega] at hstop)
      (fun m hm => by
        have h := hinner (m + 1) (by omega)
        rwa [show i + (m + 1) = i + 1 + m by omega] at h)
      (by omega)
    simp only [enumResolutionsAux, if_neg h0, hmfps]
    rw [hrec]
    simp only [Option.map_some']
    congr 1
    rw [List.range_succ_eq_map]
    simp only [List.map_cons, List.map_map]
    congr 1
    · simp [resEntry, hmfps]
    · refine List.map_congr_left fun m _ => ?_
      simp only [Function.comp]
      congr 1
      omega

/-- Characterisation of terminated control paging in the full probe. -/
lemma mainCtrlLoopTr_spec (d : Device) (rc : Nat) :
    ∀ (n fuel j : Nat),
      (∀ t < n, d.ctrlId rc (j + t) ≠ NO_DATA_AVAILABLE) →
      d.ctrlId rc (j + n) = NO_DATA_AVAILABLE →
      n < fuel →
      (mainCtrlLoopTr d rc fuel j).1
        = some ((List.range n).map fun t => ctrlEntry d rc (j + t)) := by
  intro n
  induction n with
  | zero =>
    intro fuel j _ hstop hfuel
    obtain ⟨f, rfl⟩ : ∃ f, fuel = f + 1 := ⟨fuel - 1, by omega⟩
    rw [Nat.add_zero] at hstop
    simp [mainCtrlLoopTr, hstop]
  | succ n ih =>
    intro fuel j hpre hstop hfuel
    obtain ⟨f, rfl⟩ : ∃ f, fuel = f + 1 := ⟨fuel - 1, by omega⟩
    have h0 : d.ctrlId rc j ≠ NO_DATA_AVAILABLE := by
      have h := hpre 0 (Nat.succ_pos n)
      rwa [Nat.add_zero] at h
    have hrec := ih f (j + 1)
      (fun t ht => by
        have h := hpre (t + 1) (by omega)
        rwa [show j + (t + 1) = j + 1 + t by omega] at h)
      (by rwa [show j + (n + 1) = j + 1 + n by omega] at hstop)
      (by omega)
    simp only [mainCtrlLoopTr, if_neg h0]
    rw [hrec]
    simp only [Option.map_some']
    rw [List.range_succ_eq_map, List.map_cons, List.map_map]
    have htail : ((fun t => ctrlEntry d rc (j + t)) ∘ Nat.succ)
        = fun t => ctrlEntry d rc (j + 1 + t) := by
      funext t
      simp only [Function.comp]
      have harg : j + Nat.succ t = j + 1 + t := by omega
      rw [harg]
    rw [htail]
    rfl

/-- Characterisation of terminated pixel-format paging in the full probe. -/
lemma mainPixLoopTr_spec (d : Device) (innerFuel resFuel ctrlFuel : Nat) :
    ∀ (n fuel i : Nat),
      (∀ m < n, d.pixPresence (i + m) ≠ NO_DATA_AVAILABLE) →
      d.pixPresence (i + n) = NO_DATA_AVAILABLE →
      (∀ m < n, ((pixFmtBodyTr d (i + m) innerFuel resFuel ctrlFuel).1).isSome = true) →
      n < fuel →
      (mainPixLoopTr d innerFuel resFuel ctrlFuel fuel i).1
        = some ((List.range n).map fun m =>
            (pixFmtBodyTr d (i + m) innerFuel resFuel ctrlFuel).1.getD default) := by
  intro n
  induction n with
  | zero =>
    intro fuel i _ hstop _ hfuel
    obtain ⟨f, rfl⟩ : ∃ f, fuel = f + 1 := ⟨fuel - 1, by omega⟩
    rw [Nat.add_zero] at hstop
    simp [mainPixLoopTr, hstop]
  | succ n ih =>
    intro fuel i hpre hstop hinner hfuel
    obtain ⟨f, rfl⟩ : ∃ f, fuel = f + 1 := ⟨fuel - 1, by omega⟩
    have h0 : d.pixPresence i ≠ NO_DATA_AVAILABLE := by
      have h := hpre 0 (Nat.succ_pos n)
      rwa [Nat.add_zero] at h
    have hi0 : ((pixFmtBodyTr d i innerFuel resFuel ctrlFuel).1).isSome = true := by
      have h := hinner 0 (Nat.succ_pos n)
      rwa [Nat.add_zero] at h
    obtain ⟨pf, hpf⟩ := Option.isSome_iff_exists.mp hi0
    have hrec := ih f (i + 1)
      (fun m hm => by
        have h := hpre (m + 1) (by omega)
        rwa [show i + (m + 1) = i + 1 + m by omega] at h)
      (by rwa [show i + (n + 1) = i + 1 + n by omega] at hstop)
      (fun m hm => by
        have h := hinner (m + 1) (by omega)
        rwa [show i + (m + 1) = i + 1 + m by omega] at h)
      (by omega)
    simp only [mainPixLoopTr, if_neg h0, hpf]
    rw [hrec]
    simp only [Option.map_some']
    rw [List.range_succ_eq_map, List.map_cons, List.map_map]
    have hhead : (pixFmtBodyTr d (i + 0) innerFuel resFuel ctrlFuel).1.getD default = pf := by
      rw [Nat.add_zero, hpf]
      rfl
    have htail : ((fun m => (pixFmtBodyTr d (i + m) innerFuel resFuel ctrlFuel).1.getD default)
          ∘ Nat.succ)
        = fun m => (pixFmtBodyTr d (i + 1 + m) innerFuel resFuel ctrlFuel).1.getD default := by
      funext m
      simp only [Function.comp]
      have harg : i + Nat.succ m = i + 1 + m := by omega
      rw [harg]
    rw [hhead, htail]

/-- The max-fps scan only looks at the control id and control max fields
of the resolution whose cursor it runs under. -/
lemma findMaxFpsTr_congr (d d' : Device) (rc : Nat)
    (hid : ∀ j, d.ctrlId rc j = d'.ctrlId rc j)
    (hmax : ∀ j, d.ctrlMax rc j = d'.ctrlMax rc j) :
    ∀ fuel j, findMaxFpsTr d rc fuel j = findMaxFpsTr d' rc fuel j := by
  intro fuel
  induction fuel with
  | zero => intro j; rfl
  | succ f ih =>
    intro j
    simp only [findMaxFpsTr, hid j, hmax j, ih (j + 1)]

/-- C1: for every run of a sentinel enumerator (resolution paging, control
paging, or pixel-format paging) in which the presence register first
returns the sentinel at index k, the enumerator returns exactly k
descriptors carrying indices 0 through k-1; the result is the explicit
image of indices below k, so the values that would have been read at any
index at or above k have no effect, which the last conjunct states
directly for resolution paging. -/
theorem sentinel_enumerator_returns_initial_segment :
    (∀ (d : Device) (innerFuel k fuel : Nat),
       (∀ i < k, d.resPresence i ≠ NO_DATA_AVAILABLE) →
       d.resPresence k = NO_DATA_AVAILABLE →
       (∀ i < k, ((findMaxFpsTr d i innerFuel 0).1).isSome = true) →
       k < fuel →
       (enum_resolutions d innerFuel fuel).1
         = some ((List.range k).map fun i => resEntry d innerFuel i))
    ∧ (∀ (d : Device) (rc k fuel : Nat),
       (∀ j < k, d.ctrlId rc j ≠ NO_DATA_AVAILABLE) →
       d.ctrlId rc k = NO_DATA_AVAILABLE →
       k < fuel →
       (mainCtrlLoopTr d rc fuel 0).1
         = some ((List.range k).map fun j => ctrlEntry d rc j))
    ∧ (∀ (d : Device) (innerFuel resFuel ctrlFuel k fuel : Nat),
       (∀ i < k, d.pixPresence i ≠ NO_DATA_AVAILABLE) →
       d.pixPresence k = NO_DATA_AVAILABLE →
       (∀ i < k, ((pixFmtBodyTr d i innerFuel resFuel ctrlFuel).1).isSome = true) →
       k < fuel →
       (mainPixLoopTr d innerFuel resFuel ctrlFuel fuel 0).1
         = some ((List.range k).map fun i =>
             (pixFmtBodyTr d i innerFuel resFuel ctrlFuel).1.getD default))
    ∧ (∀ (d d' : Device) (innerFuel k fuel : Nat),
       (∀ i < k, d.resPresence i = d'.resPresence i ∧ d.width i = d'.width i ∧
          d.height i = d'.height i ∧
          ∀ j, d.ctrlId i j = d'.ctrlId i j ∧ d.ctrlMax i j = d'.ctrlMax i j) →
       (∀ i < k, d.resPresence i ≠ NO_DATA_AVAILABLE) →
       d.resPresence k = NO_DATA_AVAILABLE →
       d'.resPresence k = NO_DATA_AVAILABLE →
       (∀ i < k, ((findMaxFpsTr d i innerFuel 0).1).isSome = true) →
       k < fuel →
       (enum_resolutions d innerFuel fuel).1 = (enum_resolutions d' innerFuel fuel).1) := by
  refine ⟨?_, ?_, ?_, ?_⟩
  · intro d innerFuel k fuel hpre hstop hinner hfuel
    have h := enumResolutionsAux_spec d innerFuel k fuel 0
      (by simpa using hpre) (by simpa using hstop) (by simpa using hinner) hfuel
    simpa [enum_resolutions] using h
  · intro d rc k fuel hpre hstop hfuel
    have h := mainCtrlLoopTr_spec d rc k fuel 0
      (by simpa using hpre) (by simpa using hstop) hfuel
    simpa using h
  · intro d innerFuel resFuel ctrlFuel k fuel hpre hstop hinner hfuel
    have h := mainPixLoopTr_spec d innerFuel resFuel ctrlFuel k fuel 0
      (by simpa using hpre) (by simpa using hstop) (by simpa using hinner) hfuel
    simpa using h
  · intro d d' innerFuel k fuel hagree hpre hstop hstop' hinner hfuel
    have hfps : ∀ i < k, findMaxFpsTr d i innerFuel 0 = findMaxFpsTr d' i innerFuel 0 :=
      fun i hi => findMaxFpsTr_congr d d' i
        (fun j => ((hagree i hi).2.2.2 j).1) (fun j => ((hagree i hi).2.2.2 j).2) innerFuel 0
    have h1 := enumResolutionsAux_spec d innerFuel k fuel 0
      (by simpa using hpre) (by simpa using hstop) (by simpa using hinner) hfuel
    have h2 := enumResolutionsAux_spec d' innerFuel k fuel 0
      (by simpa using fun i hi => ((hagree i hi).1 : d.resPresence i = d'.resPresence i) ▸ hpre i hi)
      (by simpa using hstop')
      (by
        intro m hm
        simp only [Nat.zero_add]
        rw [← hfps m hm]
        simpa using hinner m hm)
      hfuel
    rw [show enum_resolutions d innerFuel fuel = enumResolutionsAux d innerFuel fuel 0 from rfl,
        show enum_resolutions d' innerFuel fuel = enumResolutionsAux d' innerFuel fuel 0 from rfl,
        h1, h2]
    congr 1
    refine List.map_congr_left fun i hi => ?_
    have hik : i < k := List.mem_range.mp hi
    have ha := hagree i hik
    simp only [resEntry, Nat.zero_add, ha.2.1, ha.2.2.1, hfps i hik]

/-- Witness for C1: the two-resolution witness device, where the three
enumerators stop at sentinel positions 2, 2 and 1 respectively. -/
theorem sentinel_enumerator_returns_initial_segment_witness :
    (enum_resolutions dWitness 4 3).1
      = some ((List.range 2).map fun i => resEntry dWitness 4 i)
    ∧ (mainCtrlLoopTr dWitness 0 3 0).1
      = some ((List.range 2).map fun j => ctrlEntry dWitness 0 j)
    ∧ (mainPixLoopTr dWitness 4 3 3 2 0).1
      = some ((List.range 1).map fun i => (pixFmtBodyTr dWitness i 4 3 3).1.getD default)
    ∧ (enum_resolutions dWitness 4 3).1 = (enum_resolutions dWitness 4 3).1 :=
  ⟨sentinel_enumerator_returns_initial_segment.1 dWitness 4 2 3
      (by decide) (by decide) (by decide) (by decide),
   sentinel_enumerator_returns_initial_segment.2.1 dWitness 0 2 3
      (by decide) (by decide) (by decide),
   sentinel_enumerator_returns_initial_segment.2.2.1 dWitness 4 3 3 1 2
      (by decide) (by decide) (by decide) (by decide),
   sentinel_enumerator_returns_initial_segment.2.2.2 dWitness dWitness 4 2 3
      (fun _ _ => ⟨rfl, rfl, rfl, fun _ => ⟨rfl, rfl⟩⟩)
      (by decide) (by decide) (by decide) (by decide) (by decide)⟩

/-! ## C2: absence of an iteration ceiling -/

/-- A device whose registers all read 0: the presence reads never return
the sentinel and no control is ever the Framerate control. -/
def zeroDevice : Device where
  resPresence := fun _ => 0
  width := fun _ => 0
  height := fun _ => 0
  ctrlId := fun _ _ => 0
  ctrlMax := fun _ _ => 0
  ctrlMin := fun _ _ => 0
  ctrlDef := fun _ _ => 0
  pixPresence := fun _ => 0
  pixType := fun _ => 0
  pixOrder := fun _ => 0
  lanes := fun _ => 0
  softLen := 0
  softChar := fun _ => 0

lemma findMaxFpsTr_zeroDevice (rc : Nat) :
    ∀ fuel j, (findMaxFpsTr zeroDevice rc fuel j).1 = none := by
  intro fuel
  induction fuel with
  | zero => intro j; rfl
  | succ f ih =>
    intro j
    have h1 : zeroDevice.ctrlId rc j ≠ NO_DATA_AVAILABLE := by
      show (0 : Nat) ≠ NO_DATA_AVAILABLE
      decide
    have h2 : zeroDevice.ctrlId rc j ≠ FRAMERATE_CTRL_ID := by
      show (0 : Nat) ≠ FRAMERATE_CTRL_ID
      decide
    simp only [findMaxFpsTr, if_neg h1, if_neg h2]
    exact ih (j + 1)

/-- C2 (claim refuted by the code, stated against the code): the source
enumeration loops impose no iteration ceiling and know no
EnumerationOverflow condition; against a device whose presence register
never returns the sentinel, the loop never reaches its exit for any fuel
bound, including bounds beyond the recommended ceiling of 256 -- the run
simply never terminates instead of raising an overflow condition. -/
theorem sentinel_loop_has_no_ceiling (innerFuel fuel rc j : Nat) :
    (findMaxFpsTr zeroDevice rc fuel j).1 = none
    ∧ (enum_resolutions zeroDevice innerFuel fuel).1 = none := by
  refine ⟨findMaxFpsTr_zeroDevice rc fuel j, ?_⟩
  cases fuel with
  | zero => rfl
  | succ f =>
    have h0 : zeroDevice.resPresence 0 ≠ NO_DATA_AVAILABLE := by
      show (0 : Nat) ≠ NO_DATA_AVAILABLE
      decide
    simp only [enum_resolutions, enumResolutionsAux, if_neg h0,
      findMaxFpsTr_zeroDevice 0 innerFuel 0]

/-! ## C3: the ISP firmware version text -/

/-- Zero-padding the year to two decimal digits after a literal "20"
agrees with rendering 2000 plus the year only while the year value stays
below 100. -/
lemma year_pad_agrees : ∀ y < 100, "20" ++ pyDec02 y = Nat.repr (2000 + y) := by decide

lemma space20 (s : String) : " " ++ ("20" ++ s) = " 20" ++ s := by
  have h : (" " ++ "20" : String) = " 20" := by decide
  rw [← String.append_assoc, h]

/-- C3 counterexample: at input 0xC800 the year bit field is 100, the code
renders the literal "20" followed by "100" (giving "20100"), while the
claimed format string renders 2000 + 100 = "2100". -/
theorem parse_isp_fw_version_claim_false :
    parse_isp_fw_version 0xC800 = "v0.00 20100/00/00"
    ∧ fwVersionClaimFormat 0xC800 = "v0.00 2100/00/00"
    ∧ parse_isp_fw_version 0xC800 ≠ fwVersionClaimFormat 0xC800 := by
  refine ⟨by decide, by decide, by decide⟩

/-- C3 as amended: the decoder renders the id and date bit fields with the
year field emitted as a literal "20" followed by the year value zero-padded
to two decimal digits; this coincides with the claimed 2000 + year
rendering whenever the year bits stay at or below 99, and on the worked
example 0x01020A43 it produces exactly v1.02 2005/02/03. -/
theorem parse_isp_fw_version_decode :
    (∀ v : Nat, ((v &&& 0xFFFF) >>> 9) ≤ 99 →
        parse_isp_fw_version v = fwVersionClaimFormat v)
    ∧ parse_isp_fw_version 0x01020A43 = "v1.02 2005/02/03" := by
  constructor
  · intro v hy
    have h := year_pad_agrees ((v &&& 0xFFFF) >>> 9) (by omega)
    simp only [parse_isp_fw_version, fwVersionClaimFormat, ← h, String.append_assoc, space20]
  · decide

/-- Witness for C3's amended theorem at the worked example, whose year bit
field is 5. -/
theorem parse_isp_fw_version_decode_witness :
    parse_isp_fw_version 0x01020A43 = fwVersionClaimFormat 0x01020A43 :=
  parse_isp_fw_version_decode.1 0x01020A43 (by decide)

/-! ## C6: FOURCC derivation -/

/-- C6: for every pixel-type code and order code the derived FOURCC is the
Bayer-table entry (default RGGB) for RAW-class types, the YUV-table entry
(default YUYV) for YUV-class types, MJPG for JPEG and UNKN otherwise --
that is, the source computation agrees with the table stated by the spec
at every input, unmapped codes included. -/
theorem fourcc_derivation_matches_spec : ∀ t o : Nat, fourccOf t o = fourccSpec t o := by
  intro t o
  by_cases hy : t = 0x18 ∨ t = 0x19 ∨ t = 0x1E
  · have hr : ¬(t = 0x2A ∨ t = 0x2B ∨ t = 0x2C) := by omega
    simp [fourccOf, fourccSpec, hy, hr]
  · by_cases hr : t = 0x2A ∨ t = 0x2B ∨ t = 0x2C
    · simp [fourccOf, fourccSpec, hy, hr]
    · simp [fourccOf, fourccSpec, hy, hr]

/-! ## C7: the software version string -/

lemma string_mk_data (s : String) : String.mk s.data = s := by
  cases s
  rfl

lemma string_data_push (s : String) (c : Char) : (s.push c).data = s.data ++ [c] := by
  cases s
  rfl

/-- The character-accumulation loop of `get_software_fw_version` builds
exactly the filtered, decoded character list. -/
lemma foldl_push_skip (f : Nat → Nat) :
    ∀ (l : List Nat) (s : String),
      l.foldl (fun acc i => let ch := f i; if ch > 255 then acc else acc.push (Char.ofNat ch)) s
      = String.mk (s.data ++ (l.filter (fun i => decide (f i ≤ 255))).map
          (fun i => Char.ofNat (f i))) := by
  intro l
  induction l with
  | nil =>
    intro s
    simp [string_mk_data]
  | cons a l ih =>
    intro s
    by_cases h : f a > 255
    · have hd : ¬(f a ≤ 255) := by omega
      simp only [List.foldl_cons, List.filter_cons, if_pos h, hd, decide_False,
        Bool.false_eq_true, if_false]
      exact ih s
    · have hle : f a ≤ 255 := by omega
      simp only [List.foldl_cons, List.filter_cons, if_neg h, hle, decide_True,
        if_true, List.map_cons]
      rw [ih (s.push (Char.ofNat (f a))), string_data_push]
      simp [List.append_assoc]

/-- Terminating branch of the software-version decode, as the filtered
character list. -/
lemma get_software_fw_version_chars (d : Device)
    (h1 : d.softLen ≠ NO_DATA_AVAILABLE) (h2 : d.softLen ≤ 255) :
    get_software_fw_version d
      = String.mk (((List.range d.softLen).filter
          (fun i => decide (d.softChar i ≤ 255))).map
          (fun i => Char.ofNat (d.softChar i))) := by
  have hcond : ¬(d.softLen = NO_DATA_AVAILABLE ∨ d.softLen > 255) := by
    push_neg
    exact ⟨h1, by omega⟩
  simp only [get_software_fw_version, if_neg hcond]
  simpa using foldl_push_skip d.softChar (List.range d.softLen) ""

/-- C7: the software-version decode returns the literal string None when
the declared length is the sentinel or exceeds 255; otherwise it
concatenates, in index order, the characters of exactly those codes at or
below 255, skipping larger codes -- so with declared length 5 and a code of
300 at index 3, the result has length 4. -/
theorem get_software_fw_version_decode :
    (∀ d : Device, d.softLen = NO_DATA_AVAILABLE ∨ d.softLen > 255 →
        get_software_fw_version d = "None")
    ∧ (∀ d : Device, d.softLen ≠ NO_DATA_AVAILABLE → d.softLen ≤ 255 →
        get_software_fw_version d
          = String.mk (((List.range d.softLen).filter
              (fun i => decide (d.softChar i ≤ 255))).map
              (fun i => Char.ofNat (d.softChar i))))
    ∧ (∀ d : Device, d.softLen = 5 → d.softChar 3 = 300 →
        (∀ i < 5, i ≠ 3 → d.softChar i ≤ 255) →
        (get_software_fw_version d).length = 4) := by
  refine ⟨?_, ?_, ?_⟩
  · intro d h
    simp only [get_software_fw_version, if_pos h]
  · intro d h1 h2
    exact get_software_fw_version_chars d h1 h2
  · intro d h5 hc3 hothers
    have h1 : d.softLen ≠ NO_DATA_AVAILABLE := by
      rw [h5]
      decide
    have h2 : d.softLen ≤ 255 := by omega
    rw [get_software_fw_version_chars d h1 h2, h5]
    have f0 : d.softChar 0 ≤ 255 := hothers 0 (by omega) (by omega)
    have f1 : d.softChar 1 ≤ 255 := hothers 1 (by omega) (by omega)
    have f2 : d.softChar 2 ≤ 255 := hothers 2 (by omega) (by omega)
    have f4 : d.softChar 4 ≤ 255 := hothers 4 (by omega) (by omega)
    have hf3 : ¬(d.softChar 3 ≤ 255) := by omega
    have hr : List.range 5 = [0, 1, 2, 3, 4] := rfl
    rw [hr]
    simp [List.filter, String.length, f0, f1, f2, f4, hf3]

/-- The device used to instantiate C7: declared length 5 with the invalid
code 300 at index 3. -/
def dSoft : Device :=
  { zeroDevice with softLen := 5, softChar := fun i => if i = 3 then 300 else 65 + i }

/-- Witness for C7: on the concrete device the decoded string drops the
invalid code and has length 4. -/
theorem get_software_fw_version_decode_witness :
    (get_software_fw_version dSoft).length = 4 :=
  get_software_fw_version_decode.2.2 dSoft rfl rfl (by decide)

/-! ## C4: value reset and settle delay before bound reads -/

/-- Is this register one of the control-bound registers (min, max,
default)? -/
def boundReg (r : Nat) : Bool :=
  r == CTRL_MAX_REG || r == CTRL_MIN_REG || r == CTRL_DEF_REG

/-- Scan a trace in order, tracking whether a reset write of 0 to the
current-value register has been seen (`w`) and whether a settle delay has
been seen after such a reset (`s`); the scan returns true only if every
read of a bound register happens with `s` set, i.e. only after a
value-reset followed by a delay. -/
def ctrlGuard : Bool → Bool → List Op → Bool
  | _, _, [] => true
  | w, s, Op.write r v :: rest => ctrlGuard (w || (r == CTRL_VALUE_REG && v == 0)) s rest
  | w, s, Op.sleep :: rest => ctrlGuard w (s || w) rest
  | w, s, Op.read r _ :: rest => (!boundReg r || s) && ctrlGuard w s rest

lemma ctrlGuard_mainCtrlLoopTr (d : Device) (rc : Nat) :
    ∀ (fuel j : Nat) (w s : Bool), ctrlGuard w s (mainCtrlLoopTr d rc fuel j).2 = true := by
  intro fuel
  induction fuel with
  | zero => intro j w s; rfl
  | succ f ih =>
    intro j w s
    have hA : (CTRL_INDEX_REG == CTRL_VALUE_REG) = false := by decide
    have hB : (CTRL_VALUE_REG == CTRL_VALUE_REG) = true := by decide
    have hF : boundReg CTRL_ID_REG = false := by decide
    have hC : boundReg CTRL_MAX_REG = true := by decide
    have hD : boundReg CTRL_MIN_REG = true := by decide
    have hE : boundReg CTRL_DEF_REG = true := by decide
    by_cases h : d.ctrlId rc j = NO_DATA_AVAILABLE
    · simp [mainCtrlLoopTr, if_pos h, ctrlGuard, hA, hF]
    · simp only [mainCtrlLoopTr, if_neg h, List.cons_append, List.nil_append]
      simp only [ctrlGuard, hA, hB, hF, hC, hD, hE, beq_self_eq_true, Bool.false_and,
        Bool.or_false, Bool.and_self, Bool.or_true, Bool.not_true, Bool.not_false,
        Bool.false_or, Bool.true_or, Bool.true_and, Bool.and_true]
      exact ih (j + 1) true true

/-- C4 as amended: in the full probe's control-enumeration loop, every
read of a control's min, max or default register is preceded in the bus
trace by a write of 0 to the current-value register followed by the settle
delay (the max-fps probe of enum_resolutions is exempt: it reads the
control-max register bare, which the counterexample shows). -/
theorem main_ctrl_loop_resets_before_bound_reads (d : Device) (rc fuel j : Nat) :
    ctrlGuard false false (mainCtrlLoopTr d rc fuel j).2 = true :=
  ctrlGuard_mainCtrlLoopTr d rc fuel j false false

/-- C4 counterexample: in a run of `enum_resolutions` on the witness
device, the max-fps scan reads the control-max register (a bound register)
although no value-reset write and no settle delay occur anywhere before
it -- the guard scan over the actual bus trace fails. -/
theorem fps_scan_reads_bounds_without_reset :
    Op.read CTRL_MAX_REG 60 ∈ (enum_resolutions dWitness 4 3).2
    ∧ ctrlGuard false false (enum_resolutions dWitness 4 3).2 = false := by
  refine ⟨by decide, by decide⟩

/-! ## C8: which reads are sentinel-checked -/

/-- A device whose width register reads back the sentinel value while the
presence reads behave normally. -/
def dC8 : Device :=
  { zeroDevice with
      resPresence := fun i => if i = 0 then 0 else NO_DATA_AVAILABLE,
      width := fun _ => NO_DATA_AVAILABLE,
      height := fun _ => 7,
      ctrlId := fun _ _ => NO_DATA_AVAILABLE }

/-- C8 counterexample: a width read returning the sentinel is stored in
the resolution descriptor as-is, without ever being compared against the
sentinel -- so not every register read is sentinel-checked before use. -/
theorem width_sentinel_stored_unchecked :
    (enum_resolutions dC8 1 2).1
      = some [{ index := 0, width := NO_DATA_AVAILABLE, height := 7, max_fps := none }] := by
  decide

/-- C8 as amended: the sentinel comparison guards the presence reads of
the enumeration loops and the software-version length read -- the software
decode returns None on a sentinel length, and a terminated resolution pass
contains exactly the entries whose presence read was not the sentinel --
while detail reads such as width flow into descriptors unchecked. -/
theorem sentinel_checked_on_presence_reads_only :
    (∀ d : Device, d.softLen = NO_DATA_AVAILABLE → get_software_fw_version d = "None")
    ∧ (∀ (d : Device) (innerFuel k fuel : Nat),
        (∀ i < k, d.resPresence i ≠ NO_DATA_AVAILABLE) →
        d.resPresence k = NO_DATA_AVAILABLE →
        (∀ i < k, ((findMaxFpsTr d i innerFuel 0).1).isSome = true) →
        k < fuel →
        ∃ L, (enum_resolutions d innerFuel fuel).1 = some L ∧ L.length = k
          ∧ L.map Resolution.width = (List.range k).map d.width) := by
  constructor
  · intro d h
    simp only [get_software_fw_version, if_pos (Or.inl h)]
  · intro d innerFuel k fuel hpre hstop hinner hfuel
    have h := enumResolutionsAux_spec d innerFuel k fuel 0
      (by simpa using hpre) (by simpa using hstop) (by simpa using hinner) hfuel
    refine ⟨_, h, by simp, ?_⟩
    rw [List.map_map]
    refine List.map_congr_left fun i _ => ?_
    simp [resEntry]

/-- A device whose software-version length register reads the sentinel. -/
def dSoftNone : Device := { zeroDevice with softLen := NO_DATA_AVAILABLE }

/-- Witness for the amended C8 at concrete devices. -/
theorem sentinel_checked_on_presence_reads_only_witness :
    get_software_fw_version dSoftNone = "None"
    ∧ ∃ L, (enum_resolutions dWitness 4 3).1 = some L ∧ L.length = 2
        ∧ L.map Resolution.width = (List.range 2).map dWitness.width :=
  ⟨sentinel_checked_on_presence_reads_only.1 dSoftNone rfl,
   sentinel_checked_on_presence_reads_only.2 dWitness 4 2 3
     (by decide) (by decide) (by decide) (by decide)⟩

/-! ## C10: list_formats probes a single pixel format -/

/-- The registers `enum_resolutions` is allowed to touch: resolution
index (write/read), width/height reads, control index writes, control id
and control max reads. -/
def enumOpReg (op : Op) : Bool :=
  match op with
  | Op.write r _ => r == RESOLUTION_INDEX_REG || r == CTRL_INDEX_REG
  | Op.read r _ => r == RESOLUTION_INDEX_REG || r == FORMAT_WIDTH_REG
      || r == FORMAT_HEIGHT_REG || r == CTRL_ID_REG || r == CTRL_MAX_REG
  | Op.sleep => false

lemma enumOpReg_findMaxFpsTr (d : Device) (rc fuel j : Nat) :
    ∀ op ∈ (findMaxFpsTr d rc fuel j).2, enumOpReg op = true := by
  intro op hop
  rcases findMaxFpsTr_ops d rc fuel j op hop with ⟨v, rfl⟩ | ⟨v, rfl⟩ | ⟨v, rfl⟩ <;>
    simp [enumOpReg]

lemma enumOpReg_enumResolutionsAux (d : Device) (innerFuel : Nat) :
    ∀ (fuel i : Nat), ∀ op ∈ (enumResolutionsAux d innerFuel fuel i).2,
      enumOpReg op = true := by
  intro fuel
  induction fuel with
  | zero =>
    intro i op hop
    simp [enumResolutionsAux] at hop
  | succ f ih =>
    intro i op hop
    by_cases h : d.resPresence i = NO_DATA_AVAILABLE
    · simp only [enumResolutionsAux, if_pos h, List.mem_cons, List.not_mem_nil,
        or_false] at hop
      rcases hop with rfl | rfl <;> simp [enumOpReg]
    · rcases hfps : (findMaxFpsTr d i innerFuel 0).1 with _ | mfps
      · simp only [enumResolutionsAux, if_neg h, hfps, List.cons_append, List.nil_append,
          List.mem_cons, List.mem_append] at hop
        rcases hop with rfl | rfl | rfl | rfl | rfl | hop
        · simp [enumOpReg]
        · simp [enumOpReg]
        · simp [enumOpReg]
        · simp [enumOpReg]
        · simp [enumOpReg]
        · exact enumOpReg_findMaxFpsTr d i innerFuel 0 op hop
      · simp only [enumResolutionsAux, if_neg h, hfps, List.cons_append, List.nil_append,
          List.mem_cons, List.mem_append] at hop
        rcases hop with rfl | rfl | rfl | rfl | rfl | hop | hop
        · simp [enumOpReg]
        · simp [enumOpReg]
        · simp [enumOpReg]
        · simp [enumOpReg]
        · simp [enumOpReg]
        · exact enumOpReg_findMaxFpsTr d i innerFuel 0 op hop
        · exact ih (i + 1) op hop

/-- Writes to the pixel-format index register. -/
def isPixIdxWrite (op : Op) : Bool :=
  match op with
  | Op.write r _ => r == PIXFORMAT_INDEX_REG
  | _ => false

/-- Reads of the pixel-format type or order registers. -/
def isPixDetailRead (op : Op) : Bool :=
  match op with
  | Op.read r _ => r == PIXFORMAT_TYPE_REG || r == PIXFORMAT_ORDER_REG
  | _ => false

lemma enumOpReg_not_pix (op : Op) (h : enumOpReg op = true) :
    isPixIdxWrite op = false ∧ isPixDetailRead op = false := by
  cases op with
  | write r v =>
    simp only [enumOpReg, Bool.or_eq_true, beq_iff_eq] at h
    rcases h with rfl | rfl <;> exact ⟨rfl, rfl⟩
  | read r v =>
    simp only [enumOpReg, Bool.or_eq_true, beq_iff_eq] at h
    rcases h with ((((rfl | rfl) | rfl) | rfl) | rfl) <;> exact ⟨rfl, rfl⟩
  | sleep => exact ⟨rfl, rfl⟩

/-- C10: the format-listing operation writes only pixel-format index 0,
reads a single type/order pair, and applies the one FOURCC and one human
name derived from format index 0 uniformly to every enumerated resolution
in its output. -/
theorem list_formats_single_format_probe (d : Device) (innerFuel fuel : Nat) :
    (list_formats d innerFuel fuel).2.filter isPixIdxWrite
      = [Op.write PIXFORMAT_INDEX_REG 0]
    ∧ (list_formats d innerFuel fuel).2.filter isPixDetailRead
      = [Op.read PIXFORMAT_TYPE_REG (d.pixType 0), Op.read PIXFORMAT_ORDER_REG (d.pixOrder 0)]
    ∧ ∀ L, (list_formats d innerFuel fuel).1 = some L → ∀ l ∈ L,
        l.fourcc = fourccOf (d.pixType 0) (d.pixOrder 0)
        ∧ l.name = (pix_type_map (d.pixType 0)).getD "Unknown" := by
  have hnil : ∀ p : Op → Bool, (∀ op, enumOpReg op = true → p op = false) →
      (enum_resolutions d innerFuel fuel).2.filter p = [] := by
    intro p hp
    rw [List.filter_eq_nil_iff]
    intro a ha
    simp [hp a (enumOpReg_enumResolutionsAux d innerFuel fuel 0 a ha)]
  refine ⟨?_, ?_, ?_⟩
  · show (_ ++ (enum_resolutions d innerFuel fuel).2).filter isPixIdxWrite = _
    rw [List.filter_append, hnil isPixIdxWrite (fun op h => (enumOpReg_not_pix op h).1)]
    simp [List.filter, isPixIdxWrite]
  · show (_ ++ (enum_resolutions d innerFuel fuel).2).filter isPixDetailRead = _
    rw [List.filter_append, hnil isPixDetailRead (fun op h => (enumOpReg_not_pix op h).2)]
    simp [List.filter, isPixDetailRead]
  · intro L hL l hl
    simp only [list_formats] at hL
    rcases Option.map_eq_some'.mp hL with ⟨rs, _, rfl⟩
    rcases List.mem_map.mp hl with ⟨r, _, rfl⟩
    exact ⟨rfl, rfl⟩

/-- The first output line of `list_formats` on the witness device. -/
def lineW : FormatLine :=
  { idx := 0, fourcc := "RGGB", name := "RAW10", width := 1920, height := 1080,
    max_fps := some 60 }

/-- The full output of `list_formats` on the witness device. -/
def linesW : List FormatLine :=
  [lineW,
   { idx := 1, fourcc := "RGGB", name := "RAW10", width := 1921, height := 1081,
     max_fps := some 60 }]

/-- Witness for C10 at the witness device: its first output line carries
the FOURCC and name derived from pixel-format index 0. -/
theorem list_formats_single_format_probe_witness :
    lineW.fourcc = fourccOf (dWitness.pixType 0) (dWitness.pixOrder 0)
    ∧ lineW.name = (pix_type_map (dWitness.pixType 0)).getD "Unknown" :=
  (list_formats_single_format_probe dWitness 4 3).2.2 linesW (by decide) lineW (by decide)

/-! ## C5: batch probing under transport failures (arducli.py lines 279-353)

The probe of one device is re-embedded over a fallible transport: every
register read either returns a value or raises a TransportError (modelled
as `none` in the oracle). Writes are modelled as always succeeding; a
failing transport is represented through its reads. `main` wraps only the
`PivarietyCamera` constructor (the bus open) in a try/except; the probe
body itself runs bare, so an exception thrown there leaves the device
loop. Fuel exhaustion is kept apart from transport failure with its own
error tag. -/

inductive PErr where
  | transport
  | fuelOut
deriving DecidableEq, Repr

/-- The fallible device oracle; `none` means the read raises
TransportError. -/
structure FDevice where
  openFails : Bool
  deviceId : Option Nat
  deviceVersion : Option Nat
  sensorId : Option Nat
  uniqueId : Option Nat
  softLen : Option Nat
  softChar : Nat → Option Nat
  pixPresence : Nat → Option Nat
  pixType : Nat → Option Nat
  pixOrder : Nat → Option Nat
  lanes : Nat → Option Nat
  resPresence : Nat → Option Nat
  width : Nat → Option Nat
  height : Nat → Option Nat
  ctrlId : Nat → Nat → Option Nat
  ctrlMax : Nat → Nat → Option Nat
  ctrlMin : Nat → Nat → Option Nat
  ctrlDef : Nat → Nat → Option Nat

/-- One register read over the fallible transport. -/
def rdF : Option Nat → Except PErr Nat
  | none => .error .transport
  | some v => .ok v

/-- Fallible version of the max-fps scan of `enum_resolutions`. -/
def findMaxFpsF (d : FDevice) (rc : Nat) : Nat → Nat → Except PErr (Option Nat)
  | 0, _ => .error .fuelOut
  | fuel+1, j => do
    let cid ← rdF (d.ctrlId rc j)
    if cid = NO_DATA_AVAILABLE then
      pure none
    else if cid = FRAMERATE_CTRL_ID then do
      let m ← rdF (d.ctrlMax rc j)
      pure (some m)
    else
      findMaxFpsF d rc fuel (j + 1)

/-- Fallible version of the resolution-paging loop of `enum_resolutions`. -/
def enumResolutionsFAux (d : FDevice) (innerFuel : Nat) : Nat → Nat → Except PErr (List Resolution)
  | 0, _ => .error .fuelOut
  | fuel+1, i => do
    let pres ← rdF (d.resPresence i)
    if pres = NO_DATA_AVAILABLE then
      pure []
    else do
      let w ← rdF (d.width i)
      let h ← rdF (d.height i)
      let fps ← findMaxFpsF d i innerFuel 0
      let rest ← enumResolutionsFAux d innerFuel fuel (i + 1)
      pure ({ index := i, width := w, height := h, max_fps := fps } :: rest)

/-- Fallible version of `main`'s per-resolution control loop. -/
def ctrlLoopF (d : FDevice) (rc : Nat) : Nat → Nat → Except PErr (List Ctrl)
  | 0, _ => .error .fuelOut
  | fuel+1, j => do
    let cid ← rdF (d.ctrlId rc j)
    if cid = NO_DATA_AVAILABLE then
      pure []
    else do
      let mx ← rdF (d.ctrlMax rc j)
      let mn ← rdF (d.ctrlMin rc j)
      let df ← rdF (d.ctrlDef rc j)
      let rest ← ctrlLoopF d rc fuel (j + 1)
      pure ({ id := cid, name := (ID_map cid).getD "Unknown",
              maxVal := mx, minVal := mn, defVal := df } :: rest)

/-- Fallible version of the per-resolution control enumeration of `main`
(`cursor` is the resolution-cursor value left behind by the terminated
resolution paging). -/
def resCtrlsF (d : FDevice) (ctrlFuel cursor : Nat) : List Resolution → Except PErr (List (Resolution × List Ctrl))
  | [] => pure []
  | r :: rs => do
    let cl ← ctrlLoopF d cursor ctrlFuel 0
    let rest ← resCtrlsF d ctrlFuel cursor rs
    pure ((r, cl) :: rest)

/-- Fallible version of the character loop of `get_software_fw_version`. -/
def softVersionF (d : FDevice) : Nat → Nat → String → Except PErr String
  | 0, _, acc => pure acc
  | n+1, i, acc => do
    let ch ← rdF (d.softChar i)
    softVersionF d n (i + 1) (if ch > 255 then acc else acc.push (Char.ofNat ch))

/-- Fallible version of `get_software_fw_version`. -/
def get_software_fw_versionF (d : FDevice) : Except PErr String := do
  let len ← rdF d.softLen
  if len = NO_DATA_AVAILABLE ∨ len > 255 then
    pure "None"
  else
    softVersionF d len 0 ""

/-- Fallible version of the body of `main`'s pixel-format loop. -/
def pixFmtBodyF (d : FDevice) (i innerFuel resFuel ctrlFuel : Nat) : Except PErr PixFmt := do
  let t ← rdF (d.pixType i)
  let o ← rdF (d.pixOrder i)
  let l ← rdF (d.lanes i)
  let rs ← enumResolutionsFAux d innerFuel resFuel 0
  let rcs ← resCtrlsF d ctrlFuel rs.length rs
  pure { index := i, ptype := t, porder := o, lanes := l,
         dtype := (pix_type_map t).getD "Unknown",
         order :=
           if t = 0x2A ∨ t = 0x2B ∨ t = 0x2C then some ((raw_bayer_order o).getD "Unknown")
           else if t = 0x18 ∨ t = 0x19 ∨ t = 0x1E then some ((yuv_order o).getD "Unknown")
           else none,
         resolutions := rcs }

/-- Fallible version of `main`'s pixel-format loop. -/
def pixLoopF (d : FDevice) (innerFuel resFuel ctrlFuel : Nat) : Nat → Nat → Except PErr (List PixFmt)
  | 0, _ => .error .fuelOut
  | fuel+1, i => do
    let pres ← rdF (d.pixPresence i)
    if pres = NO_DATA_AVAILABLE then
      pure []
    else do
      let pf ← pixFmtBodyF d i innerFuel resFuel ctrlFuel
      let rest ← pixLoopF d innerFuel resFuel ctrlFuel fuel (i + 1)
      pure (pf :: rest)

/-- The structured content of everything the full-info probe of one device
logs (spec section 3 DeviceReport). -/
structure DeviceReport where
  deviceId : Nat
  deviceVersion : Nat
  sensorId : Nat
  isp_fw_version : Nat
  isp_fw_text : String
  soft_fw_text : String
  formats : List PixFmt
deriving DecidableEq, Repr

/-- The probe body `main` runs per device (lines 291-353): identity reads,
firmware and software version decode, then the nested enumeration passes.
No exception handling exists anywhere in this body. -/
def probeBodyF (d : FDevice) (innerFuel resFuel ctrlFuel pixFuel : Nat) : Except PErr DeviceReport := do
  let did ← rdF d.deviceId
  let dv ← rdF d.deviceVersion
  let sid ← rdF d.sensorId
  let fw ← rdF d.uniqueId
  let soft ← get_software_fw_versionF d
  let fmts ← pixLoopF d innerFuel resFuel ctrlFuel pixFuel 0
  pure { deviceId := did, deviceVersion := dv, sensorId := sid, isp_fw_version := fw,
         isp_fw_text := parse_isp_fw_version fw, soft_fw_text := soft, formats := fmts }

/-- The device loop of `main` (lines 279-300): only the constructor (the
bus open) sits in a try/except, whose handler logs and continues; an
exception from the probe body escapes the loop. The result is the list of
per-device outcomes for the devices that were reached (`none` when a
device produced no report) paired with a flag recording whether the run
was aborted by an uncaught exception. -/
def runBatch (innerFuel resFuel ctrlFuel pixFuel : Nat) : List FDevice → List (Option DeviceReport) × Bool
  | [] => ([], false)
  | d :: rest =>
    if d.openFails then
      let r := runBatch innerFuel resFuel ctrlFuel pixFuel rest
      (none :: r.1, r.2)
    else
      match probeBodyF d innerFuel resFuel ctrlFuel pixFuel with
      | .error _ => ([none], true)
      | .ok rep =>
        let r := runBatch innerFuel resFuel ctrlFuel pixFuel rest
        (some rep :: r.1, r.2)

/-- A healthy device: all reads succeed, no pixel formats, empty software
version. -/
def okFDevice : FDevice where
  openFails := false
  deviceId := some 0x21
  deviceVersion := some 3
  sensorId := some 0x0462
  uniqueId := some 0x01020A43
  softLen := some 0
  softChar := fun _ => some 0
  pixPresence := fun _ => some NO_DATA_AVAILABLE
  pixType := fun _ => some 0x2B
  pixOrder := fun _ => some 3
  lanes := fun _ => some 2
  resPresence := fun _ => some NO_DATA_AVAILABLE
  width := fun _ => some 0
  height := fun _ => some 0
  ctrlId := fun _ _ => some NO_DATA_AVAILABLE
  ctrlMax := fun _ _ => some 0
  ctrlMin := fun _ _ => some 0
  ctrlDef := fun _ _ => some 0

/-- A device that opens fine but whose unique-id (firmware version) read
fails mid-sequence with a TransportError. -/
def badFDevice : FDevice := { okFDevice with uniqueId := none }

/-- The report the healthy device produces. -/
def okReport : DeviceReport :=
  { deviceId := 0x21, deviceVersion := 3, sensorId := 0x0462, isp_fw_version := 0x01020A43,
    isp_fw_text := "v1.02 2005/02/03", soft_fw_text := "", formats := [] }

/-- C5 counterexample: in a three-device batch whose second device fails
mid-sequence, the uncaught exception aborts the whole loop -- the first
device got its report, the second got none, and the third was never
probed (the outcome list has only two entries and the aborted flag is
set), contradicting the claimed per-device failure isolation. -/
theorem batch_aborts_on_mid_sequence_failure :
    runBatch 1 1 1 1 [okFDevice, badFDevice, okFDevice] = ([some okReport, none], true) := by
  decide

/-- C5 as amended: failure isolation exists only at bus-open time -- a
device whose open fails is skipped and the batch continues -- while a
TransportError inside the probe body propagates, aborting the entire
batch with no report for the failing device and no probe of any later
device; a fully successful probe contributes its report and the batch
continues. -/
theorem batch_failure_isolation_scope (innerFuel resFuel ctrlFuel pixFuel : Nat)
    (d : FDevice) (rest : List FDevice) :
    (d.openFails = true →
      runBatch innerFuel resFuel ctrlFuel pixFuel (d :: rest)
        = (none :: (runBatch innerFuel resFuel ctrlFuel pixFuel rest).1,
           (runBatch innerFuel resFuel ctrlFuel pixFuel rest).2))
    ∧ (∀ e, d.openFails = false →
        probeBodyF d innerFuel resFuel ctrlFuel pixFuel = .error e →
        runBatch innerFuel resFuel ctrlFuel pixFuel (d :: rest) = ([none], true))
    ∧ (∀ r, d.openFails = false →
        probeBodyF d innerFuel resFuel ctrlFuel pixFuel = .ok r →
        runBatch innerFuel resFuel ctrlFuel pixFuel (d :: rest)
          = (some r :: (runBatch innerFuel resFuel ctrlFuel pixFuel rest).1,
             (runBatch innerFuel resFuel ctrlFuel pixFuel rest).2)) := by
  refine ⟨?_, ?_, ?_⟩
  · intro h
    simp [runBatch, h]
  · intro e ho hp
    simp [runBatch, ho, hp]
  · intro r ho hp
    simp [runBatch, ho, hp]

/-- Witness for the amended C5: the failing device at the head of a batch
aborts the run before the healthy device behind it is probed. -/
theorem batch_failure_isolation_scope_witness :
    runBatch 1 1 1 1 [badFDevice, okFDevice] = ([none], true) :=
  (batch_failure_isolation_scope 1 1 1 1 badFDevice [okFDevice]).2.1 PErr.transport rfl rfl
